import Mathlib

/-!
Verification of the RESP codec and command engine of a small Redis-like
server (`src/main.rs`).

Byte streams and byte strings are modelled as `List Nat` (one entry per
byte).  The Rust code reads lines into a `String` via `read_line` and then
calls `.trim()`; the model works at the byte level and implements `trim`
for the six ASCII whitespace bytes that `char::is_whitespace` recognizes
in the ASCII range.  Theorems about textual content carry an ASCII
hypothesis where Rust's `String` semantics (UTF-8 validation, Unicode
whitespace/case folding) could otherwise differ from the byte-level model.

Panicking paths of the Rust code (`unwrap`, `todo!`) are modelled as
`none` in an `Option` result.
-/

namespace Redis

/-- UTF-8 bytes of an ASCII string literal, used for the byte-string
constants (`b"px"`, reply fragments, command names) of `main.rs`. -/
def strBytes (s : String) : List Nat := s.data.map Char.toNat

/-- The six ASCII whitespace bytes recognized by Rust's `char::is_whitespace`
(space, tab, line feed, vertical tab, form feed, carriage return);
`str::trim` strips exactly these at the byte level for ASCII text. -/
def isWsByte (b : Nat) : Bool :=
  b == 0x20 || b == 0x09 || b == 0x0A || b == 0x0B || b == 0x0C || b == 0x0D

/-- Strip leading whitespace bytes (left half of Rust's `str::trim`). -/
def trimLeft : List Nat → List Nat
  | [] => []
  | b :: bs => if isWsByte b then trimLeft bs else b :: bs

/-- Strip trailing whitespace bytes (right half of Rust's `str::trim`). -/
def trimRight (l : List Nat) : List Nat := (trimLeft l.reverse).reverse

/-- Rust's `str::trim` restricted to ASCII whitespace: strip both ends. -/
def trimBytes (l : List Nat) : List Nat := trimRight (trimLeft l)

/-- Model of `BufRead::read_line`: consume bytes up to and including the
first line feed (byte 10), or all remaining bytes if none occurs before
end of stream.  Returns the line read and the rest of the stream. -/
def readLine : List Nat → List Nat × List Nat
  | [] => ([], [])
  | b :: bs =>
    if b == 10 then ([b], bs)
    else
      let p := readLine bs
      (b :: p.1, p.2)

/-- ASCII decimal digit test. -/
def isDigitByte (b : Nat) : Bool := 48 ≤ b && b ≤ 57

/-- Numeric value of a list of ASCII digit bytes, most significant first. -/
def digitsVal (l : List Nat) : Nat := l.foldl (fun a d => 10 * a + (d - 48)) 0

/-- Model of Rust's `str::parse::<u64>` (and `parse::<usize>` on a 64-bit
target): an optional leading plus sign, then a non-empty run of ASCII
digits whose value fits in 64 bits; anything else is a parse error.
Rust fails on intermediate overflow, which for a non-decreasing
accumulator is equivalent to the final value being at least `2 ^ 64`. -/
def parseU64 (l : List Nat) : Option Nat :=
  let l' := if l.head? = some 43 then l.tail else l
  if l'.isEmpty then none
  else if l'.all isDigitByte && decide (digitsVal l' < 2 ^ 64) then some (digitsVal l')
  else none

/-- The RESP data model of `main.rs` (`enum DataType`); strings are carried
as their UTF-8 bytes. -/
inductive DataType where
  | SimpleString (s : List Nat)
  | SimpleError (s : List Nat)
  | Integer (n : Nat)
  | BulkString (b : List Nat)
  | Array (elems : List DataType)

/-- The distinct error sources of `DataType::deserialize_data`:
the explicit protocol error and "Client disconnected" messages, a
propagated integer-parse failure, and `read_exact` hitting end of
stream. -/
inductive DeserErr where
  | protocolError
  | disconnected
  | parseIntError
  | endOfStream
deriving Repr, DecidableEq

/-- Decode a run of `n` consecutive values using decoder `f`
(the loop of the `'*'` branch of `deserialize_data`); the outer `Option`
layer threads a panic (`none`) of an element decode through the loop. -/
def deserializeManyF (f : List Nat → Option (Except DeserErr (DataType × List Nat))) :
    Nat → List Nat → Option (Except DeserErr (List DataType × List Nat))
  | 0, s => some (.ok ([], s))
  | k + 1, s =>
    match f s with
    | none => none
    | some (.error e) => some (.error e)
    | some (.ok (d, rest)) =>
      match deserializeManyF f k rest with
      | none => none
      | some (.error e) => some (.error e)
      | some (.ok (ds, rest')) => some (.ok (d :: ds, rest'))

/-- Model of `DataType::deserialize_data`, with explicit fuel bounding the
recursion depth of nested arrays (the Rust code recurses freely; fuel
`length + 1` can never run out because each nested header consumes at
least one byte of the stream).  The outer `Option` is the panic channel
(`none` models a panic aborting the task); the inner `Except` is the
function's `Result`.  One step: read a line, trim it, dispatch on the
first byte (`+` 43, `-` 45, `:` 58, `$` 36, `*` 42); an empty trimmed
line — produced both by end of stream and by a whitespace-only line —
is the "Client disconnected" error; an unknown prefix is the protocol
error.  The `$` branch computes `parse::<usize>()? + 2` in `usize`: for
a parsed length `n` with `n + 2 ≥ 2 ^ 64` the addition overflows and the
code panics in every build profile (debug: overflow panic at the `+ 2`;
release: the length wraps to 0 or 1 and the `data[0..(len - 2)]` slice
panics), modelled as `none`; otherwise it reads `n + 2` raw bytes and
keeps the first `n`.  The `*` branch decodes `n` further values. -/
def deserializeDataF : Nat → List Nat → Option (Except DeserErr (DataType × List Nat))
  | 0, _ => some (.error .disconnected)
  | fuel + 1, s =>
    let p := readLine s
    let buffer := trimBytes p.1
    match buffer with
    | [] => some (.error .disconnected)
    | c :: t =>
      if c = 43 then some (.ok (.SimpleString t, p.2))
      else if c = 45 then some (.ok (.SimpleError t, p.2))
      else if c = 58 then
        match parseU64 t with
        | some n => some (.ok (.Integer n, p.2))
        | none => some (.error .parseIntError)
      else if c = 36 then
        match parseU64 t with
        | some n =>
          if 2 ^ 64 ≤ n + 2 then none
          else if p.2.length < n + 2 then some (.error .endOfStream)
          else some (.ok (.BulkString (p.2.take n), p.2.drop (n + 2)))
        | none => some (.error .parseIntError)
      else if c = 42 then
        match parseU64 t with
        | some n =>
          match deserializeManyF (deserializeDataF fuel) n p.2 with
          | none => none
          | some (.error e) => some (.error e)
          | some (.ok (elems, rest')) => some (.ok (.Array elems, rest'))
        | none => some (.error .parseIntError)
      else some (.error .protocolError)

/-- Decode one RESP value from the front of a byte stream; `none` is a
panic of the decoding task, `some` a returned `Result`. -/
def deserializeData (s : List Nat) : Option (Except DeserErr (DataType × List Nat)) :=
  deserializeDataF (s.length + 1) s

/-- Fuel-indexed helper for `natDigits`; the fuel only serves to make the
recursion structural, `n + 1` units always suffice. -/
def natDigitsAux : Nat → Nat → List Nat
  | 0, _ => []
  | fuel + 1, n =>
    if n < 10 then [48 + n]
    else natDigitsAux fuel (n / 10) ++ [48 + n % 10]

/-- ASCII decimal digits of a natural number, most significant first
(what Rust's `format!("{}", n)` writes for an unsigned integer). -/
def natDigits (n : Nat) : List Nat := natDigitsAux (n + 1) n

/-- Carriage return / line feed pair. -/
def crlf : List Nat := [13, 10]

/-- Wire form of a bulk string written by `handle_command` for `ECHO` and
`GET` replies: `format!("${}\r\n", len)`, the payload, then `"\r\n"`. -/
def bulkReply (b : List Nat) : List Nat :=
  [36] ++ natDigits b.length ++ crlf ++ b ++ crlf

/-- The command model of `main.rs` (`enum Command`); `INVALID` carries the
diagnostic message (ASCII, so modelled as a Lean string), `SETPX` carries
the TTL in milliseconds (`Duration::from_millis`). -/
inductive Command where
  | INVALID (msg : String)
  | PING
  | ECHO (msg : List Nat)
  | GET (key : List Nat)
  | SET (key value : List Nat)
  | SETPX (key value : List Nat) (ttlMs : Nat)
  | CONFIGGET (key : List Nat)

/-- ASCII lowercasing of one byte.  Models
`String::from_utf8_lossy(..).to_lowercase()` at the byte level: for the
five pure-ASCII command names matched by `Command::from`, a byte sequence
compares equal to a name under this model exactly when its lossy-decoded,
Unicode-lowercased form equals that name in Rust. -/
def lowerByte (b : Nat) : Nat := if 65 ≤ b ∧ b ≤ 90 then b + 32 else b

/-- ASCII lowercasing of a byte string (see `lowerByte`). -/
def lowerBytes (l : List Nat) : List Nat := l.map lowerByte

/-- The `"echo"` arm of `Command::from`: arity must be exactly 2 and the
argument must be a bulk string. -/
def parseEcho : List DataType → Option Command
  | [_, .BulkString msg] => some (.ECHO msg)
  | [_, _] => some (.INVALID "Invalid data type for command. must be a bulk string")
  | _ => some (.INVALID "Invalid data type for command. must be an array of length 2")

/-- The `"get"` arm of `Command::from`: arity must be exactly 2 and the
key must be a bulk string. -/
def parseGet : List DataType → Option Command
  | [_, .BulkString key] => some (.GET key)
  | [_, _] => some (.INVALID "Invalid data type for command. must be a bulk string")
  | _ => some (.INVALID "Invalid data type for command. must be an array of length 2")

/-- The `"set"` arm of `Command::from`: arity 3 (plain set) or arity 5
with the fourth element equal to the bytes `px` and the fifth parsed as
`u64` milliseconds.  The Rust code calls `.unwrap()` on that parse, so a
non-numeric fifth element panics: modelled as `none`. -/
def parseSet : List DataType → Option Command
  | [_, .BulkString key, .BulkString value] => some (.SET key value)
  | [_, .BulkString key, .BulkString value, a3, a4] =>
    match a3 with
    | .BulkString arg =>
      if arg = strBytes "px" then
        match a4 with
        | .BulkString e =>
          match parseU64 e with
          | some ms => some (.SETPX key value ms)
          | none => none
        | _ => some (.INVALID "Invalid data type for command. PX argument must be a bulk string")
      else some (.INVALID "Invalid argument for command. PX is only accepted argument name")
    | _ => some (.INVALID "Invalid data type for command. must be a bulk string")
  | [_, _, _] => some (.INVALID "Invalid data type for command. must be a bulk string")
  | [_, _, _, _, _] => some (.INVALID "Invalid data type for command. must be a bulk string")
  | _ => some (.INVALID "Invalid data type for command. must be an array of length 3 or 5")

/-- The `"config"` arm of `Command::from`: arity 3, second element must be
the bytes `get`, third element is the parameter name. -/
def parseConfig : List DataType → Option Command
  | [_, .BulkString arg, a2] =>
    if arg = strBytes "get" then
      match a2 with
      | .BulkString key => some (.CONFIGGET key)
      | _ => some (.INVALID "Invalid data type for command. GET argument must be a bulk string")
    else some (.INVALID "Invalid argument for command. GET is only accepted argument name")
  | [_, _, _] => some (.INVALID "Invalid data type for command. must be a bulk string")
  | _ => some (.INVALID "Invalid data type for command. must be an array of length 3")

/-- Model of `impl From<DataType> for Command`: the input must be a
non-empty array whose first element is a bulk string; that element,
case-folded, selects the command arm.  An unrecognized name hits the
`todo!()` arm and panics: modelled as `none`. -/
def commandFrom : DataType → Option Command
  | .Array args =>
    match args with
    | [] => some (.INVALID "Invalid data type for command. must be a non-empty array")
    | a0 :: _ =>
      match a0 with
      | .BulkString cmd =>
        let name := lowerBytes cmd
        if name = strBytes "ping" then some .PING
        else if name = strBytes "echo" then parseEcho args
        else if name = strBytes "get" then parseGet args
        else if name = strBytes "set" then parseSet args
        else if name = strBytes "config" then parseConfig args
        else none
      | _ => some (.INVALID "Invalid data type for command. must be a bulk string")
  | _ => some (.INVALID "Invalid data type for command. must be an array")

/-- A stored value (`struct DataStoreValue`): the value bytes and an
optional absolute expiry instant.  Instants are modelled as natural
numbers (an absolute monotone clock, as `tokio::time::Instant`). -/
structure DataStoreValue where
  value : List Nat
  expiry : Option Nat
deriving DecidableEq

/-- The snapshot path configured at startup.  `main` builds a `PathBuf` by
pushing the `--dbfilename` value onto the `--dir` value; `handle_command`
recovers the two components with `parent()` and `file_name()`.  The model
stores the two components directly (for the paths `main` builds from a
directory string and a plain file name, both recoveries succeed). -/
structure RdbPath where
  dir : List Nat
  filename : List Nat
deriving DecidableEq

/-- The shared server state (`struct State`): the key-value store, modelled
as an association list keyed by byte strings (`HashMap` insertion order is
irrelevant to every observation made here), plus the optional snapshot
path. -/
structure State where
  datastore : List (List Nat × DataStoreValue)
  rdbPath : Option RdbPath
deriving DecidableEq

/-- Model of `HashMap::get`: first binding of the key, if any. -/
def dsGet : List (List Nat × DataStoreValue) → List Nat → Option DataStoreValue
  | [], _ => none
  | (k', v) :: rest, k => if k' = k then some v else dsGet rest k

/-- Model of `HashMap::insert`: bind the key, replacing any previous binding. -/
def dsInsert (ds : List (List Nat × DataStoreValue)) (k : List Nat) (v : DataStoreValue) :
    List (List Nat × DataStoreValue) :=
  (k, v) :: ds.filter (fun p => p.1 ≠ k)

/-- Model of `HashMap::remove`: drop the key's binding. -/
def dsRemove (ds : List (List Nat × DataStoreValue)) (k : List Nat) :
    List (List Nat × DataStoreValue) :=
  ds.filter (fun p => p.1 ≠ k)

/-- Model of `handle_command`: one command applied to the state at clock
instant `now` (the model's stand-in for the `Instant::now()` calls),
returning the bytes written to the client and the state afterwards.
`none` models a panic: `CONFIG GET` unwraps the absent `rdb_path`. -/
def handleCommand (cmd : Command) (st : State) (now : Nat) :
    Option (List Nat × State) :=
  match cmd with
  | .PING => some (strBytes "+PONG\r\n", st)
  | .ECHO msg => some (bulkReply msg, st)
  | .GET key =>
    match dsGet st.datastore key with
    | some dsv =>
      match dsv.expiry with
      | some expiry =>
        if expiry < now then
          some (strBytes "$-1\r\n", { st with datastore := dsRemove st.datastore key })
        else some (bulkReply dsv.value, st)
      | none => some (bulkReply dsv.value, st)
    | none => some (strBytes "$-1\r\n", st)
  | .SET key value =>
    some (strBytes "+OK\r\n",
      { st with datastore := dsInsert st.datastore key ⟨value, none⟩ })
  | .SETPX key value ttlMs =>
    some (strBytes "+OK\r\n",
      { st with datastore := dsInsert st.datastore key ⟨value, some (now + ttlMs)⟩ })
  | .CONFIGGET key =>
    match st.rdbPath with
    | none => none
    | some p =>
      if key = strBytes "dir" then
        some (strBytes "*2\r\n$3\r\ndir\r\n" ++ bulkReply p.dir, st)
      else if key = strBytes "dbfilename" then
        some (strBytes "*2\r\n$10\r\ndbfilename\r\n" ++ bulkReply p.filename, st)
      else some (strBytes "$-1\r\n", st)
  | .INVALID msg => some ([45] ++ strBytes msg ++ crlf, st)

/-- The argument shapes on which the `"set"` arm of `Command::from` panics:
the 5-element form with bulk-string key and value, a bulk-string fourth
element equal to `px`, and a bulk-string fifth element that fails `u64`
parsing (the `.unwrap()` at the millisecond parse). -/
def setPxPanics : List DataType → Prop
  | [_, .BulkString _, .BulkString _, .BulkString arg, .BulkString e] =>
    arg = strBytes "px" ∧ parseU64 e = none
  | _ => False

/-- The five command names recognized by `Command::from` after case
folding. -/
def knownName (name : List Nat) : Prop :=
  lowerBytes name = strBytes "ping" ∨ lowerBytes name = strBytes "echo" ∨
    lowerBytes name = strBytes "get" ∨ lowerBytes name = strBytes "set" ∨
    lowerBytes name = strBytes "config"

/-- The inputs on which `Command::from` panics instead of returning a
command: an array headed by a bulk string whose case-folded name is
unrecognized (the `todo!()` arm), or a recognized `set` whose 5-argument
form carries a `px` millisecond argument that does not parse. -/
def parserAborts : DataType → Prop
  | .Array (.BulkString name :: rest) =>
    ¬ knownName name ∨
      (lowerBytes name = strBytes "set" ∧ setPxPanics (DataType.BulkString name :: rest))
  | _ => False

/-- The command/state pairs on which `handle_command` panics: `CONFIG GET`
when no snapshot path was configured at startup (the `rdb_path` unwrap). -/
def execAborts (cmd : Command) (st : State) : Prop :=
  match cmd with
  | .CONFIGGET _ => st.rdbPath = none
  | _ => False

theorem readLine_eq (l r : List Nat) (h : ∀ b ∈ l, b ≠ 10) :
    readLine (l ++ 10 :: r) = (l ++ [10], r) := by
  induction l with
  | nil => simp [readLine]
  | cons b bs ih =>
    have hb : b ≠ 10 := h b (List.mem_cons_self _ _)
    have ih' := ih (fun x hx => h x (List.mem_cons_of_mem _ hx))
    simp [readLine, hb, ih']

theorem trimLeft_cons_of_not_ws (b : Nat) (bs : List Nat) (h : isWsByte b = false) :
    trimLeft (b :: bs) = b :: bs := by
  simp [trimLeft, h]

theorem trimLeft_append_not_ws (xs : List Nat) (a : Nat) (h : isWsByte a = false) :
    trimLeft (xs ++ [a]) = trimLeft xs ++ [a] := by
  induction xs with
  | nil => simp [trimLeft, h]
  | cons x xs ih =>
    cases hx : isWsByte x <;> simp [trimLeft, hx, ih]

theorem trimRight_cons_of_not_ws (a : Nat) (l : List Nat) (h : isWsByte a = false) :
    trimRight (a :: l) = a :: trimRight l := by
  unfold trimRight
  rw [show (a :: l).reverse = l.reverse ++ [a] by simp]
  rw [trimLeft_append_not_ws _ _ h]
  simp

theorem trimRight_append_crlf (l : List Nat) :
    trimRight (l ++ [13, 10]) = trimRight l := by
  have h : (l ++ [13, 10]).reverse = 10 :: 13 :: l.reverse := by simp
  unfold trimRight
  rw [h]
  simp [trimLeft, isWsByte]

theorem trimRight_of_all_not_ws (l : List Nat) (h : ∀ b ∈ l, isWsByte b = false) :
    trimRight l = l := by
  induction l with
  | nil => rfl
  | cons a l ih =>
    rw [trimRight_cons_of_not_ws _ _ (h a (List.mem_cons_self _ _))]
    rw [ih (fun b hb => h b (List.mem_cons_of_mem _ hb))]

theorem trimBytes_line (p : Nat) (body : List Nat) (hp : isWsByte p = false) :
    trimBytes ((p :: body) ++ [13, 10]) = p :: trimRight body := by
  unfold trimBytes
  rw [show (p :: body) ++ [13, 10] = p :: (body ++ [13, 10]) by simp]
  rw [trimLeft_cons_of_not_ws _ _ hp]
  rw [show p :: (body ++ [13, 10]) = (p :: body) ++ [13, 10] by simp]
  rw [trimRight_append_crlf]
  exact trimRight_cons_of_not_ws _ _ hp

theorem readLine_header (p : Nat) (body tail : List Nat)
    (hp : p ≠ 10) (hbody : ∀ b ∈ body, b ≠ 10) :
    readLine ((p :: body) ++ 13 :: 10 :: tail) = ((p :: body) ++ [13, 10], tail) := by
  have h10 : ∀ b ∈ (p :: body) ++ [13], b ≠ 10 := by
    intro b hb
    rcases List.mem_append.mp hb with h | h
    · rcases List.mem_cons.mp h with h | h
      · exact h ▸ hp
      · exact hbody b h
    · simp at h; omega
  have := readLine_eq ((p :: body) ++ [13]) tail h10
  simpa using this

theorem isWsByte_of_digit (d : Nat) (h1 : 48 ≤ d) : isWsByte d = false := by
  simp only [isWsByte, Bool.or_eq_false_iff, beq_eq_false_iff_ne, ne_eq]
  omega

theorem natDigitsAux_irrel (fuel₁ : Nat) :
    ∀ fuel₂ n, n < fuel₁ → n < fuel₂ → natDigitsAux fuel₁ n = natDigitsAux fuel₂ n := by
  induction fuel₁ with
  | zero => intro fuel₂ n h1 _; omega
  | succ f ih =>
    intro fuel₂ n h1 h2
    cases fuel₂ with
    | zero => omega
    | succ f2 =>
      simp only [natDigitsAux]
      by_cases h10 : n < 10
      · simp [h10]
      · simp only [h10, if_false]
        rw [ih f2 (n / 10) (by omega) (by omega)]

theorem natDigits_eq (n : Nat) :
    natDigits n = if n < 10 then [48 + n] else natDigits (n / 10) ++ [48 + n % 10] := by
  rw [show natDigits n
      = if n < 10 then [48 + n] else natDigitsAux n (n / 10) ++ [48 + n % 10] from rfl]
  by_cases h10 : n < 10
  · simp [h10]
  · simp only [h10, if_false]
    rw [natDigitsAux_irrel n (n / 10 + 1) (n / 10) (by omega) (by omega)]
    rfl

theorem natDigits_mem_bounds (n : Nat) : ∀ d ∈ natDigits n, 48 ≤ d ∧ d ≤ 57 := by
  induction n using Nat.strong_induction_on with
  | _ n ih =>
    rw [natDigits_eq]
    by_cases h10 : n < 10
    · simp only [h10, if_true, List.mem_singleton]
      intro d hd
      omega
    · simp only [h10, if_false]
      intro d hd
      rcases List.mem_append.mp hd with h | h
      · exact ih (n / 10) (by omega) d h
      · simp only [List.mem_singleton] at h
        have := Nat.mod_lt n (show 0 < 10 by omega)
        omega

theorem natDigits_ne_nil (n : Nat) : natDigits n ≠ [] := by
  rw [natDigits_eq]
  by_cases h10 : n < 10 <;> simp [h10]

theorem digitsVal_append_digit (l : List Nat) (d : Nat) :
    digitsVal (l ++ [d]) = 10 * digitsVal l + (d - 48) := by
  simp [digitsVal, List.foldl_append]

theorem digitsVal_natDigits (n : Nat) : digitsVal (natDigits n) = n := by
  induction n using Nat.strong_induction_on with
  | _ n ih =>
    rw [natDigits_eq]
    by_cases h10 : n < 10
    · simp only [h10, if_true]
      simp [digitsVal]
    · simp only [h10, if_false]
      rw [digitsVal_append_digit, ih (n / 10) (by omega)]
      omega

theorem parseU64_natDigits (n : Nat) (h : n < 2 ^ 64) :
    parseU64 (natDigits n) = some n := by
  have hall : (natDigits n).all isDigitByte = true := by
    rw [List.all_eq_true]
    intro d hd
    have := natDigits_mem_bounds n d hd
    simp only [isDigitByte, Bool.and_eq_true, decide_eq_true_eq]
    omega
  have hne := natDigits_ne_nil n
  have hhead : ¬ (natDigits n).head? = some 43 := by
    cases hnd : natDigits n with
    | nil => exact absurd hnd hne
    | cons d t =>
      have : 48 ≤ d :=
        (natDigits_mem_bounds n d (by rw [hnd]; exact List.mem_cons_self _ _)).1
      simp only [List.head?_cons, Option.some.injEq]
      omega
  have hlt : decide (digitsVal (natDigits n) < 2 ^ 64) = true := by
    rw [digitsVal_natDigits]
    exact decide_eq_true h
  unfold parseU64
  rw [if_neg hhead]
  rw [if_neg (by simpa [List.isEmpty_iff] using hne)]
  rw [if_pos (by rw [hall, hlt]; rfl)]
  rw [digitsVal_natDigits]

theorem dsGet_insert_self (ds : List (List Nat × DataStoreValue)) (k : List Nat)
    (v : DataStoreValue) : dsGet (dsInsert ds k v) k = some v := by
  simp [dsGet, dsInsert]

theorem natDigits_not_nl (n : Nat) : ∀ b ∈ natDigits n, b ≠ 10 := by
  intro b hb
  have := natDigits_mem_bounds n b hb
  omega

theorem trimBytes_digit_header (n : Nat) (p : Nat) (hp : isWsByte p = false) :
    trimBytes ((p :: natDigits n) ++ [13, 10]) = p :: natDigits n := by
  rw [trimBytes_line p (natDigits n) hp]
  rw [trimRight_of_all_not_ws _
    (fun b hb => isWsByte_of_digit b (natDigits_mem_bounds n b hb).1)]

theorem deserializeData_bulk_header (n : Nat) (tail : List Nat) (hn : n < 2 ^ 64) :
    deserializeData ((36 :: natDigits n) ++ 13 :: 10 :: tail) =
      if 2 ^ 64 ≤ n + 2 then none
      else if tail.length < n + 2 then some (.error .endOfStream)
      else some (.ok (.BulkString (tail.take n), tail.drop (n + 2))) := by
  have hrl := readLine_header 36 (natDigits n) tail (by omega) (natDigits_not_nl n)
  have htrim := trimBytes_digit_header n 36 (by decide)
  unfold deserializeData
  simp only [deserializeDataF, hrl, htrim]
  simp only [parseU64_natDigits n hn]
  norm_num

theorem deserializeData_bulk_overflow (m : Nat) (tail : List Nat)
    (hover : 2 ^ 64 ≤ m + 2) (hm : m < 2 ^ 64) :
    deserializeData (([36] ++ natDigits m ++ crlf) ++ tail) = none := by
  have h := deserializeData_bulk_header m tail hm
  have hshape : ([36] ++ natDigits m ++ crlf) ++ tail
      = (36 :: natDigits m) ++ 13 :: 10 :: tail := by
    simp [crlf]
  rw [hshape, h, if_pos hover]

theorem dsGet_remove_self (ds : List (List Nat × DataStoreValue)) (k : List Nat) :
    dsGet (dsRemove ds k) k = none := by
  induction ds with
  | nil => rfl
  | cons p rest ih =>
    obtain ⟨k', v'⟩ := p
    by_cases hk : k' = k
    · simpa [dsRemove, List.filter_cons, hk] using ih
    · simpa [dsRemove, List.filter_cons, hk, dsGet] using ih

/-- C1 counterexample: the claim says decoding fails (with an error
result) whenever the stream ends before `n + 2` bytes are read, but on
the realizable 23-byte input `$18446744073709551614` followed by CRLF
and nothing else (`n = 2 ^ 64 - 2`), the code panics at the `usize`
overflow of `parse::<usize>()? + 2` instead of returning any error. -/
theorem bulk_len_overflow_counterexample :
    deserializeData (strBytes "$18446744073709551614\r\n") = none ∧
    ∀ e : DeserErr, deserializeData (strBytes "$18446744073709551614\r\n") ≠
      some (.error e) := by
  refine ⟨rfl, ?_⟩
  intro e h
  rw [show deserializeData (strBytes "$18446744073709551614\r\n") = none from rfl] at h
  exact Option.noConfusion h

/-- C1 (amended): Serializing any byte sequence `b` with
`b.length + 2 < 2 ^ 64` (every sequence realizable in memory) as a RESP
bulk string (header `$n`, CRLF, payload, CRLF — the exact form
`handle_command` writes) and decoding the result yields back exactly
the original `n = b.length` bytes; the decoder consumes exactly `n + 2`
raw bytes after the header line, returning only the first `n`, and any
following stream content is left untouched.  Decoding a `$n` header
with `n + 2 < 2 ^ 64` whose remaining stream is shorter than `n + 2`
bytes fails with the end-of-stream error; for the two header values
with `n + 2 ≥ 2 ^ 64` the decoder instead panics at the `usize` length
computation. -/
theorem bulkString_roundtrip (b rest t : List Nat) (n : Nat)
    (hb : b.length + 2 < 2 ^ 64) (hn : n + 2 < 2 ^ 64) (ht : t.length < n + 2) :
    deserializeData (bulkReply b ++ rest) = some (.ok (.BulkString b, rest)) ∧
    deserializeData (([36] ++ natDigits n ++ crlf) ++ t) = some (.error .endOfStream) ∧
    ∀ (m : Nat) (tail : List Nat), 2 ^ 64 ≤ m + 2 → m < 2 ^ 64 →
      deserializeData (([36] ++ natDigits m ++ crlf) ++ tail) = none := by
  refine ⟨?_, ?_, ?_⟩
  · have h := deserializeData_bulk_header b.length (b ++ 13 :: 10 :: rest) (by omega)
    have hshape : bulkReply b ++ rest
        = (36 :: natDigits b.length) ++ 13 :: 10 :: (b ++ 13 :: 10 :: rest) := by
      simp [bulkReply, crlf]
    have htake : (b ++ 13 :: 10 :: rest).take b.length = b := List.take_left b _
    have hdrop : (b ++ 13 :: 10 :: rest).drop (b.length + 2) = rest := by
      simp [List.drop_append]
    rw [hshape, h, if_neg (by omega), if_neg (by simp), htake, hdrop]
  · have h := deserializeData_bulk_header n t (by omega)
    have hshape : ([36] ++ natDigits n ++ crlf) ++ t = (36 :: natDigits n) ++ 13 :: 10 :: t := by
      simp [crlf]
    rw [hshape, h, if_neg (by omega), if_pos ht]
  · exact fun m tail hover hm => deserializeData_bulk_overflow m tail hover hm

/-- Witness for C1 (amended) at `b = [7, 8]` with one trailing stream
byte, the truncated case `$3` followed by a single byte, and the
overflow case `n = 2 ^ 64 - 2` with an empty remainder. -/
theorem bulkString_roundtrip_witness :
    deserializeData (bulkReply [7, 8] ++ [99]) = some (.ok (.BulkString [7, 8], [99])) ∧
    deserializeData (([36] ++ natDigits 3 ++ crlf) ++ [65]) = some (.error .endOfStream) ∧
    deserializeData (([36] ++ natDigits (2 ^ 64 - 2) ++ crlf) ++ []) = none := by
  have h := bulkString_roundtrip [7, 8] [99] [65] 3 (by decide) (by decide) (by decide)
  exact ⟨h.1, h.2.1, h.2.2 (2 ^ 64 - 2) [] (by decide) (by decide)⟩

/-- C10 counterexample: the claim asserts decoding succeeds for every
stream where a `$n` header is followed by at least `n + 2` bytes, but
at `n = 2 ^ 64 - 2` with exactly `n + 2` following bytes the code
panics at the `usize` overflow of the length computation (modelled
`none`) instead of succeeding. -/
theorem bulk_overflow_no_success_counterexample :
    deserializeData (([36] ++ natDigits (2 ^ 64 - 2) ++ crlf) ++ List.replicate (2 ^ 64) 0)
        = none ∧
    2 ^ 64 - 2 + 2 ≤ (List.replicate (2 ^ 64) 0).length := by
  refine ⟨deserializeData_bulk_overflow (2 ^ 64 - 2) _ (by decide) (by decide), ?_⟩
  rw [List.length_replicate]
  decide

/-- C10 (amended): whenever the `$n` header line has `n + 2 < 2 ^ 64`
(so the `usize` length computation does not overflow) and is followed
by at least `n + 2` bytes, decoding succeeds and returns the first `n`
bytes; the two bytes after the payload are consumed and discarded
unconditionally, with no requirement that they form a CRLF pair.  For
`n + 2 ≥ 2 ^ 64` the decoder panics instead. -/
theorem bulk_trailing_bytes_unchecked (n : Nat) (t : List Nat)
    (hn : n + 2 < 2 ^ 64) (ht : n + 2 ≤ t.length) :
    deserializeData (([36] ++ natDigits n ++ crlf) ++ t) =
      some (.ok (.BulkString (t.take n), t.drop (n + 2))) := by
  have h := deserializeData_bulk_header n t (by omega)
  have hshape : ([36] ++ natDigits n ++ crlf) ++ t = (36 :: natDigits n) ++ 13 :: 10 :: t := by
    simp [crlf]
  rw [hshape, h, if_neg (by omega), if_neg (by omega)]

/-- Witness for C10 (amended): header `$1` followed by the bytes `ABC` —
payload `A`, discarded trailer `BC`, which is not CRLF — still
decodes. -/
theorem bulk_trailing_bytes_unchecked_witness :
    deserializeData (([36] ++ natDigits 1 ++ crlf) ++ [65, 66, 67]) =
      some (.ok (.BulkString [65], [])) :=
  bulk_trailing_bytes_unchecked 1 [65, 66, 67] (by decide) (by decide)

/-- C3: the parser is not total on 5-element SET arrays whose `px`
millisecond argument is not a valid unsigned decimal: the code reaches
`parse::<u64>().unwrap()` and panics (modelled as `none`) instead of
returning an `INVALID` command as the specification requires. -/
theorem set_px_nonnumeric_panics :
    commandFrom (.Array [.BulkString (strBytes "set"), .BulkString (strBytes "key"),
      .BulkString (strBytes "value"), .BulkString (strBytes "px"),
      .BulkString (strBytes "abc")]) = none := rfl

/-- C5 counterexample: an empty line with no type prefix yields the same
"Client disconnected" error as end-of-stream — not a malformed-protocol
error, contrary to the claim. -/
theorem empty_line_counterexample :
    deserializeData [13, 10] = some (.error .disconnected) ∧
    DeserErr.disconnected ≠ DeserErr.protocolError :=
  ⟨rfl, by decide⟩

/-- C5 (amended): an empty line with no type prefix and end-of-stream
while expecting a line produce the same "Client disconnected" error
condition; the decoder does not distinguish them (an unknown non-empty
prefix, by contrast, is the protocol error). -/
theorem empty_line_eq_eof_disconnected (rest : List Nat) :
    deserializeData (13 :: 10 :: rest) = some (.error .disconnected) ∧
    deserializeData [] = some (.error .disconnected) := by
  constructor
  · have hrl : readLine (13 :: 10 :: rest) = ([13, 10], rest) := by
      have h10 : ∀ b ∈ [13], b ≠ 10 := by decide
      simpa using readLine_eq [13] rest h10
    have htrim : trimBytes [13, 10] = [] := by decide
    unfold deserializeData
    simp only [deserializeDataF, hrl, htrim]
  · rfl

/-- C6 counterexample: the line content `hi ` (with a trailing space)
between the `+` prefix and the CRLF terminator decodes to `hi`, not to
the verbatim content. -/
theorem simple_string_trailing_space_counterexample :
    deserializeData (strBytes "+hi \r\n") = some (.ok (.SimpleString (strBytes "hi"), [])) ∧
    strBytes "hi" ≠ strBytes "hi " :=
  ⟨rfl, by decide⟩

/-- C6 (amended): the decoder reads the header line up to and including
the CRLF pair, but strips, along with that terminator, all trailing
(and line-leading) ASCII whitespace of the line: for SimpleString and
SimpleError the decoded text is the content between the type prefix and
the CRLF terminator with its trailing whitespace removed — verbatim
exactly when the content ends in no whitespace byte. -/
theorem simple_line_decode_trims (content rest : List Nat)
    (_hascii : ∀ b ∈ content, b < 128) (hnl : ∀ b ∈ content, b ≠ 10) :
    deserializeData ((43 :: content) ++ 13 :: 10 :: rest) =
      some (.ok (.SimpleString (trimRight content), rest)) ∧
    deserializeData ((45 :: content) ++ 13 :: 10 :: rest) =
      some (.ok (.SimpleError (trimRight content), rest)) := by
  constructor
  · have hrl := readLine_header 43 content rest (by omega) hnl
    have htrim := trimBytes_line 43 content (by decide)
    unfold deserializeData
    simp only [deserializeDataF, hrl, htrim]
    norm_num
  · have hrl := readLine_header 45 content rest (by omega) hnl
    have htrim := trimBytes_line 45 content (by decide)
    unfold deserializeData
    simp only [deserializeDataF, hrl, htrim]
    norm_num

/-- Witness for C6 (amended) at the ASCII content `a b ` with one
trailing stream byte. -/
theorem simple_line_decode_trims_witness :
    deserializeData ((43 :: strBytes "a b ") ++ 13 :: 10 :: [88]) =
      some (.ok (.SimpleString (strBytes "a b"), [88])) ∧
    deserializeData ((45 :: strBytes "a b ") ++ 13 :: 10 :: [88]) =
      some (.ok (.SimpleError (strBytes "a b"), [88])) :=
  simple_line_decode_trims (strBytes "a b ") [88] (by decide) (by decide)

/-- C7 counterexample: a 2-element array headed by `ping` parses to the
`PING` command, not to an `INVALID` arity diagnostic. -/
theorem ping_extra_arg_counterexample :
    commandFrom (.Array [.BulkString (strBytes "ping"), .BulkString (strBytes "x")]) =
      some .PING := rfl

/-- C7 (amended): the parser performs no arity check for `ping`: every
array whose first element is a bulk string case-folding to `ping`
yields the `PING` command, whatever the array's length. -/
theorem ping_ignores_arity (name : List Nat) (rest : List DataType)
    (h : lowerBytes name = strBytes "ping") :
    commandFrom (.Array (.BulkString name :: rest)) = some .PING := by
  simp [commandFrom, h]

/-- Witness for C7 (amended): `PiNg` with two extra integer arguments. -/
theorem ping_ignores_arity_witness :
    commandFrom (.Array [.BulkString (strBytes "PiNg"), .Integer 7, .Integer 8]) =
      some .PING :=
  ping_ignores_arity (strBytes "PiNg") [.Integer 7, .Integer 8] (by decide)

/-- C2: for a key present in the store at the time of a GET, an expiry
strictly in the past yields the null bulk string reply and physically
removes the key (the removed key no longer resolves); no expiry, or a
future expiry, yields the stored value and leaves the store mapping
unchanged. -/
theorem get_expiry_read_semantics (st : State) (k : List Nat) (now : Nat)
    (dsv : DataStoreValue) (hlook : dsGet st.datastore k = some dsv) :
    (∀ e, dsv.expiry = some e → e < now →
      handleCommand (.GET k) st now
          = some (strBytes "$-1\r\n", { st with datastore := dsRemove st.datastore k }) ∧
        dsGet (dsRemove st.datastore k) k = none) ∧
    ((dsv.expiry = none ∨ ∃ e, dsv.expiry = some e ∧ now < e) →
      handleCommand (.GET k) st now = some (bulkReply dsv.value, st)) := by
  constructor
  · intro e he hlt
    exact ⟨by simp [handleCommand, hlook, he, hlt], dsGet_remove_self _ _⟩
  · intro hcase
    rcases hcase with hnone | ⟨e, he, hgt⟩
    · simp [handleCommand, hlook, hnone]
    · simp [handleCommand, hlook, he, show ¬ e < now by omega]

/-- Witness for C2: a store holding key `k` (byte 107) with value byte 118
and expiry instant 5, read at instants 9 (expired: null reply, key
removed) and 3 (not expired: value reply, store untouched). -/
theorem get_expiry_read_semantics_witness :
    (handleCommand (.GET [107]) ⟨[([107], ⟨[118], some 5⟩)], none⟩ 9
        = some (strBytes "$-1\r\n", ⟨[], none⟩) ∧
      dsGet (dsRemove [([107], ⟨[118], some 5⟩)] [107]) [107] = none) ∧
    handleCommand (.GET [107]) ⟨[([107], ⟨[118], some 5⟩)], none⟩ 3
        = some (bulkReply [118], ⟨[([107], ⟨[118], some 5⟩)], none⟩) := by
  constructor
  · exact (get_expiry_read_semantics ⟨[([107], ⟨[118], some 5⟩)], none⟩ [107] 9
      ⟨[118], some 5⟩ rfl).1 5 rfl (by decide)
  · exact (get_expiry_read_semantics ⟨[([107], ⟨[118], some 5⟩)], none⟩ [107] 3
      ⟨[118], some 5⟩ rfl).2 (Or.inr ⟨5, rfl, by decide⟩)

/-- C4: a plain SET overwrites any existing entry and clears any stored
expiry: after SETPX at instant `t0` with TTL `ttl`, then a plain SET of
the same key at `t1` (before the TTL elapses), a GET at any `t2` at or
after `t0 + ttl` still returns the second value, with no removal. -/
theorem plain_set_overwrites_and_clears_expiry (st : State) (k v1 v2 : List Nat)
    (ttl t0 t1 t2 : Nat) (_hbefore : t1 < t0 + ttl) (_hafter : t0 + ttl ≤ t2) :
    ∃ st1 st2,
      handleCommand (.SETPX k v1 ttl) st t0 = some (strBytes "+OK\r\n", st1) ∧
      handleCommand (.SET k v2) st1 t1 = some (strBytes "+OK\r\n", st2) ∧
      handleCommand (.GET k) st2 t2 = some (bulkReply v2, st2) := by
  refine ⟨_, _, rfl, rfl, ?_⟩
  simp [handleCommand, dsGet_insert_self]

/-- Witness for C4: `SET k v1 PX 50` at instant 0, plain `SET k v2` at
instant 10, `GET k` at instant 100. -/
theorem plain_set_overwrites_and_clears_expiry_witness :
    ∃ st1 st2,
      handleCommand (.SETPX [107] [1] 50) ⟨[], none⟩ 0 = some (strBytes "+OK\r\n", st1) ∧
      handleCommand (.SET [107] [2]) st1 10 = some (strBytes "+OK\r\n", st2) ∧
      handleCommand (.GET [107]) st2 100 = some (bulkReply [2], st2) :=
  plain_set_overwrites_and_clears_expiry ⟨[], none⟩ [107] [1] [2] 50 0 10 100
    (by decide) (by decide)

/-- C8: SETPX with a TTL of zero milliseconds stores an expiry equal to
the current instant, and a GET at any strictly later instant finds the
key already expired: it replies with the null bulk string and removes
the key. -/
theorem setpx_zero_expires_on_next_read (st : State) (k v : List Nat)
    (tSet tGet : Nat) (h : tSet < tGet) :
    ∃ st1,
      handleCommand (.SETPX k v 0) st tSet = some (strBytes "+OK\r\n", st1) ∧
      dsGet st1.datastore k = some ⟨v, some tSet⟩ ∧
      handleCommand (.GET k) st1 tGet
          = some (strBytes "$-1\r\n", { st1 with datastore := dsRemove st1.datastore k }) ∧
      dsGet (dsRemove st1.datastore k) k = none := by
  refine ⟨_, rfl, ?_, ?_, dsGet_remove_self _ _⟩
  · simpa using dsGet_insert_self st.datastore k ⟨v, some (tSet + 0)⟩
  · simp [handleCommand, dsGet_insert_self, h]

/-- Witness for C8: `SET k v PX 0` at instant 4, `GET k` at instant 5. -/
theorem setpx_zero_expires_on_next_read_witness :
    ∃ st1,
      handleCommand (.SETPX [107] [118] 0) ⟨[], none⟩ 4 = some (strBytes "+OK\r\n", st1) ∧
      dsGet st1.datastore [107] = some ⟨[118], some 4⟩ ∧
      handleCommand (.GET [107]) st1 5
          = some (strBytes "$-1\r\n", { st1 with datastore := dsRemove st1.datastore [107] }) ∧
      dsGet (dsRemove st1.datastore [107]) [107] = none :=
  setpx_zero_expires_on_next_read ⟨[], none⟩ [107] [118] 4 5 (by decide)

theorem parseEcho_ne_none (args : List DataType) : parseEcho args ≠ none := by
  rcases args with _ | ⟨a, _ | ⟨b, _ | ⟨c, t⟩⟩⟩
  · simp [parseEcho]
  · simp [parseEcho]
  · cases b <;> simp [parseEcho]
  · simp [parseEcho]

theorem parseGet_ne_none (args : List DataType) : parseGet args ≠ none := by
  rcases args with _ | ⟨a, _ | ⟨b, _ | ⟨c, t⟩⟩⟩
  · simp [parseGet]
  · simp [parseGet]
  · cases b <;> simp [parseGet]
  · simp [parseGet]

theorem parseConfig_ne_none (args : List DataType) : parseConfig args ≠ none := by
  rcases args with _ | ⟨a, _ | ⟨b, _ | ⟨c, _ | ⟨d, t⟩⟩⟩⟩
  · simp [parseConfig]
  · simp [parseConfig]
  · simp [parseConfig]
  · cases b with
    | BulkString arg =>
      by_cases harg : arg = strBytes "get"
      · cases c <;> simp [parseConfig, harg]
      · simp [parseConfig, harg]
    | SimpleString s => simp [parseConfig]
    | SimpleError s => simp [parseConfig]
    | Integer n => simp [parseConfig]
    | Array elems => simp [parseConfig]
  · simp [parseConfig]

theorem parseSet_none_iff (args : List DataType) :
    parseSet args = none ↔ setPxPanics args := by
  rcases args with _ | ⟨a, _ | ⟨b, _ | ⟨c, _ | ⟨d, _ | ⟨e, t⟩⟩⟩⟩⟩
  · simp [parseSet, setPxPanics]
  · simp [parseSet, setPxPanics]
  · simp [parseSet, setPxPanics]
  · cases b <;> cases c <;> simp [parseSet, setPxPanics]
  · cases b <;> cases c <;> simp [parseSet, setPxPanics]
  · rcases t with _ | ⟨f, t'⟩
    · cases b with
      | BulkString key =>
        cases c with
        | BulkString value =>
          cases d with
          | BulkString arg =>
            by_cases harg : arg = strBytes "px"
            · cases e with
              | BulkString ebytes =>
                cases hpu : parseU64 ebytes <;> simp [parseSet, setPxPanics, harg, hpu]
              | SimpleString s => simp [parseSet, setPxPanics, harg]
              | SimpleError s => simp [parseSet, setPxPanics, harg]
              | Integer n => simp [parseSet, setPxPanics, harg]
              | Array elems => simp [parseSet, setPxPanics, harg]
            · cases e <;> simp [parseSet, setPxPanics, harg]
          | SimpleString s => simp [parseSet, setPxPanics]
          | SimpleError s => simp [parseSet, setPxPanics]
          | Integer n => simp [parseSet, setPxPanics]
          | Array elems => simp [parseSet, setPxPanics]
        | SimpleString s => simp [parseSet, setPxPanics]
        | SimpleError s => simp [parseSet, setPxPanics]
        | Integer n => simp [parseSet, setPxPanics]
        | Array elems => simp [parseSet, setPxPanics]
      | SimpleString s => simp [parseSet, setPxPanics]
      | SimpleError s => simp [parseSet, setPxPanics]
      | Integer n => simp [parseSet, setPxPanics]
      | Array elems => simp [parseSet, setPxPanics]
    · cases b <;> cases c <;> simp [parseSet, setPxPanics]

theorem commandFrom_bulk_head_iff (name : List Nat) (rest : List DataType) :
    commandFrom (.Array (.BulkString name :: rest)) = none ↔
      parserAborts (.Array (.BulkString name :: rest)) := by
  have hpe := parseEcho_ne_none (.BulkString name :: rest)
  have hpg := parseGet_ne_none (.BulkString name :: rest)
  have hpc := parseConfig_ne_none (.BulkString name :: rest)
  have hps := parseSet_none_iff (.BulkString name :: rest)
  simp only [commandFrom, parserAborts, knownName]
  by_cases h1 : lowerBytes name = strBytes "ping"
  · simp [h1, show ¬ (strBytes "ping" = strBytes "set") by decide]
  · by_cases h2 : lowerBytes name = strBytes "echo"
    · simp [h1, h2, hpe,
        show ¬ (strBytes "echo" = strBytes "ping") by decide,
        show ¬ (strBytes "echo" = strBytes "set") by decide]
    · by_cases h3 : lowerBytes name = strBytes "get"
      · simp [h1, h2, h3, hpg,
          show ¬ (strBytes "get" = strBytes "ping") by decide,
          show ¬ (strBytes "get" = strBytes "echo") by decide,
          show ¬ (strBytes "get" = strBytes "set") by decide]
      · by_cases h4 : lowerBytes name = strBytes "set"
        · simp [h1, h2, h3, h4, hps,
            show ¬ (strBytes "set" = strBytes "ping") by decide,
            show ¬ (strBytes "set" = strBytes "echo") by decide,
            show ¬ (strBytes "set" = strBytes "get") by decide]
        · by_cases h5 : lowerBytes name = strBytes "config"
          · simp [h1, h2, h3, h4, h5, hpc,
              show ¬ (strBytes "config" = strBytes "ping") by decide,
              show ¬ (strBytes "config" = strBytes "echo") by decide,
              show ¬ (strBytes "config" = strBytes "get") by decide,
              show ¬ (strBytes "config" = strBytes "set") by decide]
          · simp [h1, h2, h3, h4, h5]

/-- C9 counterexample: a third abort condition beyond the two the claim
allows: a 5-element SET — a recognized command name, with configuration
irrelevant — whose `px` millisecond argument `12x` is not a valid
unsigned decimal makes `Command::from` panic (modelled `none`). -/
theorem set_px_third_abort_counterexample :
    commandFrom (.Array [.BulkString (strBytes "set"), .BulkString (strBytes "k"),
      .BulkString (strBytes "v"), .BulkString (strBytes "px"),
      .BulkString (strBytes "12x")]) = none ∧
    lowerBytes (strBytes "set") = strBytes "set" :=
  ⟨rfl, rfl⟩

/-- C9 (amended): Exactly three command-level conditions abort the
connection instead of producing a SimpleError reply: (1) an
unrecognized command name during parsing, (2) a 5-element SET whose
`px` millisecond argument fails unsigned 64-bit parsing, and (3)
executing CONFIG GET when no configuration was supplied at startup;
every other validation failure yields an `INVALID` command, which
`handle_command` answers with a SimpleError reply and continues. -/
theorem abort_conditions_exactly_three :
    (∀ d : DataType, commandFrom d = none ↔ parserAborts d) ∧
    (∀ (cmd : Command) (st : State) (now : Nat),
      handleCommand cmd st now = none ↔ execAborts cmd st) := by
  constructor
  · intro d
    rcases d with s | s | n | b | args
    · simp [commandFrom, parserAborts]
    · simp [commandFrom, parserAborts]
    · simp [commandFrom, parserAborts]
    · simp [commandFrom, parserAborts]
    · rcases args with _ | ⟨a0, rest⟩
      · simp [commandFrom, parserAborts]
      · cases a0 with
        | BulkString name => exact commandFrom_bulk_head_iff name rest
        | SimpleString s => simp [commandFrom, parserAborts]
        | SimpleError s => simp [commandFrom, parserAborts]
        | Integer n => simp [commandFrom, parserAborts]
        | Array elems => simp [commandFrom, parserAborts]
  · intro cmd st now
    cases cmd with
    | INVALID msg => simp [handleCommand, execAborts]
    | PING => simp [handleCommand, execAborts]
    | ECHO msg => simp [handleCommand, execAborts]
    | GET key =>
      cases hg : dsGet st.datastore key with
      | none => simp [handleCommand, execAborts, hg]
      | some dsv =>
        cases he : dsv.expiry with
        | none => simp [handleCommand, execAborts, hg, he]
        | some e =>
          by_cases hlt : e < now <;> simp [handleCommand, execAborts, hg, he, hlt]
    | SET key value => simp [handleCommand, execAborts]
    | SETPX key value ttl => simp [handleCommand, execAborts]
    | CONFIGGET key =>
      cases hrp : st.rdbPath with
      | none => simp [handleCommand, execAborts, hrp]
      | some p =>
        by_cases h1 : key = strBytes "dir"
        · simp [handleCommand, execAborts, hrp, h1]
        · by_cases h2 : key = strBytes "dbfilename" <;>
            simp [handleCommand, execAborts, hrp, h1, h2,
              show ¬ (strBytes "dbfilename" = strBytes "dir") by decide]

end Redis
